import Mathlib

/-!
# DOMule — verification of the dynamic-import scheduler and event core

Shallow embedding, in Lean 4, of the coordination logic of the DOMule
repository: the DOM scanner (`hnl.domscanner.mjs`), the dynamic module
loader (`hnl.dynamicimports.mjs`), the visibility check
(`isVisible` in `hnl.helpers.mjs`), the event handler
(`hnl.eventhandler.mjs`) and the breakpoint handler
(`hnl.breakpoints.mjs`).  Each definition is translated directly from
the JavaScript source; theorems below settle the specification claims
against these definitions.
-/

namespace DOMule

/-! ## DOM model

A DOM element is modelled by an identity and its `dataset` map
(the `data-*` attributes, keyed by their camel-cased dataset names,
e.g. attribute `data-require-lazy` has dataset key `requireLazy`).
-/

structure Elem where
  idx : Nat
  dataset : List (String × String)
deriving DecidableEq, Repr

/-- `element.dataset[k]`: first binding of `k` in the dataset. -/
def getData (e : Elem) (k : String) : Option String :=
  List.lookup k e.dataset

/-- Does the element carry the attribute at all
(`document.querySelectorAll('[data-…]')` membership)? -/
def hasData (e : Elem) (k : String) : Bool :=
  (getData e k).isSome

/-- JavaScript truthiness of `element.dataset[k]`:
`undefined` and the empty string are falsy, any other string is truthy. -/
def dataTruthy (e : Elem) (k : String) : Bool :=
  match getData e k with
  | some s => !(s == "")
  | none => false

/-! ## domScanner (`hnl.domscanner.mjs`)

`domScanner($name, $callBack, $stripExtension)` queries all elements
carrying `data-{$name}`, splits each attribute value on commas, and
sorts every non-blank token into the `_modules` map, or into the
`_deferred` map when the element's `dataset['requireLazy']` is truthy.
The two maps start out empty at page load; we model one scan.
JavaScript objects keep string keys in insertion order, so a map is
modelled as an association list with unique keys in insertion order.
-/

/-- Whitespace as far as JavaScript's `String.prototype.trim` is
concerned (the code points occurring in this code base). -/
def jsWhitespace (c : Char) : Bool :=
  c = ' ' || c = '\t' || c = '\n' || c = '\r'

/-- JavaScript `s.trim()`: remove leading and trailing whitespace. -/
def jsTrim (s : String) : String :=
  ⟨((s.data.dropWhile jsWhitespace).reverse.dropWhile jsWhitespace).reverse⟩

/-- Auxiliary for `jsSplitComma`: accumulate the current (reversed)
segment until a comma is hit. -/
def jsSplitCommaAux : List Char → List Char → List String
  | [], cur => [⟨cur.reverse⟩]
  | c :: rest, cur =>
    if c = ',' then ⟨cur.reverse⟩ :: jsSplitCommaAux rest []
    else jsSplitCommaAux rest (c :: cur)

/-- JavaScript `s.split(',')`: the comma-separated segments, keeping
empty segments. -/
def jsSplitComma (s : String) : List String :=
  jsSplitCommaAux s.data []

/-- `(_map[module] = _map[module] ? _map[module] : []).push(element)`:
append `e` to the list at key `k`, creating the key at the end of the
map when absent. -/
def pushTo (m : List (String × List Elem)) (k : String) (e : Elem) :
    List (String × List Elem) :=
  match m with
  | [] => [(k, [e])]
  | (k', es) :: rest =>
    if k' = k then (k', es ++ [e]) :: rest else (k', es) :: pushTo rest k e

/-- `mod.replace(/\.m*js$/, '')`: strip a trailing `.m…mjs`/`.js`
extension (a dot, any number of `m`s, then `js`, at the end). -/
def stripModExt (s : String) : String :=
  if s.endsWith "js" then
    let u := s.dropRight 2
    let ms := u.data.reverse.takeWhile (fun c => c = 'm') |>.length
    let v := u.dropRight ms
    if v.endsWith "." then v.dropRight 1 else s
  else s

/-- Is the element routed to the lazy group? Source:
`if (element.dataset['requireLazy'])` — the dataset key is the fixed
name `requireLazy` (attribute `data-require-lazy`), not derived from
the scanned attribute name. -/
def isLazy (e : Elem) : Bool := dataTruthy e "requireLazy"

/-- Stored form of a raw comma-split token. Source:
`const module = stripExt ? mod.replace(/\.m*js$/, '') : mod;` —
the token is kept verbatim (not trimmed) unless the extension is
stripped. -/
def tokenKey (stripExt : Bool) (tok : String) : String :=
  if stripExt then stripModExt tok else tok

/-- Process one comma-split token of an element's attribute value:
`if (module.toString().trim()) { … }` keeps non-blank tokens and routes
them to the deferred map when the element is lazy. -/
def scanStep (stripExt : Bool) (e : Elem)
    (acc : List (String × List Elem) × List (String × List Elem))
    (mod : String) : List (String × List Elem) × List (String × List Elem) :=
  let module := tokenKey stripExt mod
  if jsTrim module ≠ "" then
    if isLazy e then
      (acc.1, pushTo acc.2 module e)
    else
      (pushTo acc.1 module e, acc.2)
  else acc

/-- Process one element of the query result: iterate over the
comma-separated tokens of its `data-{name}` value. -/
def scanElement (name : String) (stripExt : Bool)
    (acc : List (String × List Elem) × List (String × List Elem))
    (e : Elem) : List (String × List Elem) × List (String × List Elem) :=
  match getData e name with
  | none => acc
  | some v => (jsSplitComma v).foldl (scanStep stripExt e) acc

/-- `domScanner`: returns the `_modules` map, the `_deferred` map and
`totals = Object.keys(_modules).length`, exactly the three arguments
passed to `$callBack`. -/
def domScanner (name : String) (stripExt : Bool) (doc : List Elem) :
    List (String × List Elem) × List (String × List Elem) × Nat :=
  let modsReq := doc.filter (fun e => hasData e name)
  let maps := modsReq.foldl (scanElement name stripExt) ([], [])
  (maps.1, maps.2, maps.1.length)

/-- Lookup of a module identifier's element list in a scanner map. -/
def lookupList (m : List (String × List Elem)) (k : String) : List Elem :=
  (List.lookup k m).getD []

lemma lookup_pushTo (m : List (String × List Elem)) (k k' : String) (e : Elem) :
    lookupList (pushTo m k e) k' =
      if k' = k then lookupList m k' ++ [e] else lookupList m k' := by
  induction m with
  | nil =>
    by_cases h : k' = k
    · simp [pushTo, lookupList, List.lookup, h]
    · simp [pushTo, lookupList, List.lookup, h, beq_eq_false_iff_ne.mpr h]
  | cons hd tl ih =>
    obtain ⟨k0, es⟩ := hd
    by_cases h1 : k0 = k
    · subst h1
      by_cases h2 : k' = k0
      · simp [pushTo, lookupList, List.lookup, h2]
      · simp [pushTo, lookupList, List.lookup, h2, beq_eq_false_iff_ne.mpr h2]
    · by_cases h2 : k' = k0
      · have hk : ¬ k' = k := by
          intro h; exact h1 (h ▸ h2).symm
        simp [pushTo, h1, lookupList, List.lookup, h2, hk]
      · simp only [pushTo, if_neg h1, lookupList, List.lookup,
          beq_eq_false_iff_ne.mpr h2]
        exact ih

/-- Does token `tok` contribute an occurrence to identifier `m`?
(non-blank after trimming, and its stored form is exactly `m`). -/
def tokenHits (stripExt : Bool) (m : String) (tok : String) : Bool :=
  !(jsTrim (tokenKey stripExt tok) == "") && tokenKey stripExt tok == m

lemma lookup_scanStep (se : Bool) (e : Elem)
    (acc : List (String × List Elem) × List (String × List Elem))
    (mod m : String) :
    lookupList (scanStep se e acc mod).1 m =
      lookupList acc.1 m ++
        (if tokenHits se m mod ∧ isLazy e = false then [e] else []) ∧
    lookupList (scanStep se e acc mod).2 m =
      lookupList acc.2 m ++
        (if tokenHits se m mod ∧ isLazy e = true then [e] else []) := by
  unfold scanStep tokenHits
  by_cases hb : jsTrim (tokenKey se mod) = ""
  · simp [hb]
  · by_cases hm : tokenKey se mod = m
    · rw [hm] at hb
      cases hl : isLazy e with
      | false => simp [hb, hm, hl, lookup_pushTo]
      | true => simp [hb, hm, hl, lookup_pushTo]
    · have hm' : ¬ m = tokenKey se mod := fun h => hm h.symm
      cases hl : isLazy e with
      | false =>
        simp [hb, hl, lookup_pushTo, beq_eq_false_iff_ne.mpr hm, hm']
      | true =>
        simp [hb, hl, lookup_pushTo, beq_eq_false_iff_ne.mpr hm, hm']

lemma foldTokens_lookup (se : Bool) (e : Elem) (m : String)
    (toks : List String)
    (acc : List (String × List Elem) × List (String × List Elem)) :
    lookupList (toks.foldl (scanStep se e) acc).1 m =
      lookupList acc.1 m ++
        (if isLazy e then []
         else (toks.filter (tokenHits se m)).map (fun _ => e)) ∧
    lookupList (toks.foldl (scanStep se e) acc).2 m =
      lookupList acc.2 m ++
        (if isLazy e then (toks.filter (tokenHits se m)).map (fun _ => e)
         else []) := by
  induction toks generalizing acc with
  | nil => simp
  | cons t ts ih =>
    simp only [List.foldl_cons, List.filter_cons]
    obtain ⟨ihs1, ihs2⟩ := ih (scanStep se e acc t)
    obtain ⟨st1, st2⟩ := lookup_scanStep se e acc t m
    constructor
    · rw [ihs1, st1]
      cases hl : isLazy e <;> by_cases ht : tokenHits se m t = true <;>
        simp [ht, hl, List.append_assoc]
    · rw [ihs2, st2]
      cases hl : isLazy e <;> by_cases ht : tokenHits se m t = true <;>
        simp [ht, hl, List.append_assoc]

/-- Occurrences of element `e` contributed to identifier `m`: one copy
of `e` per comma-split token of its attribute value that is non-blank
and whose stored form is exactly `m`. -/
def requestsOf (name : String) (stripExt : Bool) (m : String) (e : Elem) :
    List Elem :=
  match getData e name with
  | none => []
  | some v => ((jsSplitComma v).filter (tokenHits stripExt m)).map (fun _ => e)

lemma scanElement_lookup (name : String) (se : Bool) (e : Elem) (m : String)
    (acc : List (String × List Elem) × List (String × List Elem)) :
    lookupList (scanElement name se acc e).1 m =
      lookupList acc.1 m ++ (if isLazy e then [] else requestsOf name se m e) ∧
    lookupList (scanElement name se acc e).2 m =
      lookupList acc.2 m ++ (if isLazy e then requestsOf name se m e else []) := by
  unfold scanElement requestsOf
  cases getData e name with
  | none => simp
  | some v => exact foldTokens_lookup se e m (jsSplitComma v) acc

lemma foldElems_lookup (name : String) (se : Bool) (m : String)
    (elems : List Elem)
    (acc : List (String × List Elem) × List (String × List Elem)) :
    lookupList (elems.foldl (scanElement name se) acc).1 m =
      lookupList acc.1 m ++
        elems.flatMap (fun e => if isLazy e then [] else requestsOf name se m e) ∧
    lookupList (elems.foldl (scanElement name se) acc).2 m =
      lookupList acc.2 m ++
        elems.flatMap (fun e => if isLazy e then requestsOf name se m e else []) := by
  induction elems generalizing acc with
  | nil => simp
  | cons e es ih =>
    simp only [List.foldl_cons, List.flatMap_cons]
    obtain ⟨ih1, ih2⟩ := ih (scanElement name se acc e)
    obtain ⟨se1, se2⟩ := scanElement_lookup name se e m acc
    rw [ih1, se1, ih2, se2, List.append_assoc, List.append_assoc]
    exact ⟨rfl, rfl⟩

/-- Declarative description of the immediate group, following the
(amended) specification: among the elements that carry the attribute
and are not flagged lazy, in document order, each contributes one
occurrence per listing of the identifier. -/
def specImmediateGroup (name : String) (stripExt : Bool)
    (doc : List Elem) (m : String) : List Elem :=
  ((doc.filter (fun e => hasData e name)).filter
      (fun e => !isLazy e)).flatMap (requestsOf name stripExt m)

/-- Declarative description of the lazy group: same, over the elements
flagged lazy. -/
def specLazyGroup (name : String) (stripExt : Bool)
    (doc : List Elem) (m : String) : List Elem :=
  ((doc.filter (fun e => hasData e name)).filter
      (fun e => isLazy e)).flatMap (requestsOf name stripExt m)

lemma filter_bind_requests_false (name : String) (se : Bool) (m : String)
    (l : List Elem) :
    (l.filter (fun e => !isLazy e)).flatMap (requestsOf name se m) =
      l.flatMap (fun e =>
        if isLazy e then [] else requestsOf name se m e) := by
  induction l with
  | nil => simp
  | cons e es ih =>
    cases h : isLazy e <;> simp [List.filter_cons, h, ih]

lemma filter_bind_requests_true (name : String) (se : Bool) (m : String)
    (l : List Elem) :
    (l.filter (fun e => isLazy e)).flatMap (requestsOf name se m) =
      l.flatMap (fun e =>
        if isLazy e then requestsOf name se m e else []) := by
  induction l with
  | nil => simp
  | cons e es ih =>
    cases h : isLazy e <;> simp [List.filter_cons, h, ih]

/-- Claim C8 (amended): for every document and identifier `m`, the
immediate and lazy maps produced by `domScanner` send `m` to exactly
the elements that requested it, in document/encounter order, one
occurrence per listing of `m` among the element's non-blank
comma-split tokens (tokens are kept verbatim, not trimmed). -/
theorem domScanner_group_characterization (name : String) (se : Bool)
    (doc : List Elem) (m : String) :
    lookupList (domScanner name se doc).1 m =
      specImmediateGroup name se doc m ∧
    lookupList (domScanner name se doc).2.1 m =
      specLazyGroup name se doc m := by
  unfold domScanner specImmediateGroup specLazyGroup
  obtain ⟨h1, h2⟩ := foldElems_lookup name se m
    (doc.filter (fun e => hasData e name)) ([], [])
  rw [filter_bind_requests_false, filter_bind_requests_true]
  refine ⟨?_, ?_⟩
  · simpa [lookupList] using h1
  · simpa [lookupList] using h2

/-- Element 1 of the C4 scenario: `data-requires="a.mod,b.mod"`. -/
def c4elem1 : Elem := ⟨1, [("requires", "a.mod,b.mod")]⟩

/-- Element 2 of the C4 scenario: `data-requires="b.mod"`. -/
def c4elem2 : Elem := ⟨2, [("requires", "b.mod")]⟩

/-- Element 3 as the claim states it: `data-requires="c.mod"` with
`data-requires-lazy="true"`, whose dataset key is `requiresLazy`. -/
def c4elem3Claim : Elem := ⟨3, [("requires", "c.mod"), ("requiresLazy", "true")]⟩

/-- Element 3 with the flag the code actually reads:
`data-require-lazy="true"`, dataset key `requireLazy`. -/
def c4elem3Lazy : Elem := ⟨3, [("requires", "c.mod"), ("requireLazy", "true")]⟩

/-- Claim C4 (counterexample): with element3 carrying the claim's flag
attribute `data-requires-lazy="true"`, the scanner — which tests the
fixed dataset key `requireLazy`, i.e. attribute `data-require-lazy` —
puts `c.mod` in the immediate group: the lazy group is empty and
`totalModuleCount` is 3, not 2 as the claim states. -/
theorem domScanner_requiresLazy_flag_mismatch :
    (domScanner "requires" false [c4elem1, c4elem2, c4elem3Claim]).2.1 = [] ∧
    lookupList (domScanner "requires" false [c4elem1, c4elem2, c4elem3Claim]).1
      "c.mod" = [c4elem3Claim] ∧
    (domScanner "requires" false [c4elem1, c4elem2, c4elem3Claim]).2.2 = 3 ∧
    (domScanner "requires" false [c4elem1, c4elem2, c4elem3Claim]).2.2 ≠ 2 := by
  decide

/-- Claim C4 (amended): with the lazy flag written as the code reads
it (`data-require-lazy="true"`), scanning the three elements yields
immediate group `{a.mod:[element1], b.mod:[element1, element2]}`, lazy
group `{c.mod:[element3]}` and `totalModuleCount = 2`. -/
theorem domScanner_three_element_scenario :
    domScanner "requires" false [c4elem1, c4elem2, c4elem3Lazy] =
      ([("a.mod", [c4elem1]), ("b.mod", [c4elem1, c4elem2])],
       [("c.mod", [c4elem3Lazy])], 2) := by
  decide

/-- Element with untrimmed second token: `data-requires="a.mod, b.mod"`. -/
def c8elem1 : Elem := ⟨1, [("requires", "a.mod, b.mod")]⟩

/-- Element listing the same identifier twice:
`data-requires="c.mod,c.mod"`. -/
def c8elem2 : Elem := ⟨2, [("requires", "c.mod,c.mod")]⟩

/-- Claim C8 (counterexample): the scanner stores the token
`" b.mod"` verbatim (untrimmed), and an element listing `c.mod` twice
appears twice in the list for `c.mod` — refuting both the
"stored trimmed" and the "no element appearing twice" parts. -/
theorem domScanner_untrimmed_and_duplicated :
    (" b.mod", [c8elem1]) ∈
      (domScanner "requires" false [c8elem1, c8elem2]).1 ∧
    jsTrim " b.mod" ≠ " b.mod" ∧
    lookupList (domScanner "requires" false [c8elem1, c8elem2]).1 "c.mod" =
      [c8elem2, c8elem2] ∧
    ¬ (lookupList (domScanner "requires" false [c8elem1, c8elem2]).1
        "c.mod").Nodup := by
  decide

end DOMule

/-! ## dynImports — immediate modules (`hnl.dynamicimports.mjs`, v1 loader)

The older loader keeps a countdown `let c = totals;` over the immediate
modules.  Each import's `.then` handler decrements `c` (after the
try/catch around `module.init`), the `.catch` handler only logs, and
the `.finally` handler fires the completion callback when `!c`.
We model the sequence of promise settlements in completion order:
`true` = the import resolved (init errors are caught inside and still
reach `c--`), `false` = the import rejected.  The result counts the
callback invocations.
-/

/-- State of the v1 completion tracking: the countdown `c` and the
number of times the completion callback has run. -/
def dynImportsV1Settle (totals : Nat) (settles : List Bool) : Int × Nat :=
  settles.foldl (fun acc ok =>
    let c := if ok then acc.1 - 1 else acc.1
    (c, if c = 0 then acc.2 + 1 else acc.2))
    ((totals : Int), 0)

/-- Number of completion-callback invocations of the v1 loader, given
the settle outcomes in completion order. -/
def dynImportsV1CallbackCount (totals : Nat) (settles : List Bool) : Nat :=
  (dynImportsV1Settle totals settles).2

/-- Claim C1 (code evaluation at the failing input): with two
immediate modules, if either import rejects the v1 loader's completion
callback never fires (the countdown is only decremented in the success
path), while with both resolving it fires exactly once.  This
contradicts the claim that individual load failures never prevent the
callback from firing. -/
theorem dynImportsV1_failure_blocks_callback :
    dynImportsV1CallbackCount 2 [true, false] = 0 ∧
    dynImportsV1CallbackCount 2 [false, true] = 0 ∧
    dynImportsV1CallbackCount 2 [false, false] = 0 ∧
    dynImportsV1CallbackCount 2 [true, true] = 1 := by
  decide

/-! ## dynImports — lazy modules (`watchModules` in `hnl.dynamicimports.mjs`)

For each key of the deferred map the loader registers a `docShift`
listener `watchModules`.  On each signal the listener loops over the
key's elements; `isVisible` invokes its callback synchronously.  For a
visible element, `if (deferredModules[key])` guards the dynamic import
— but the `delete deferredModules[key]` happens only inside
the import's `.then`, i.e. asynchronously, strictly after the whole
synchronous signal.  `removeListener` is called synchronously inside
the visible branch and takes effect from the next signal on.  Each
started import later resolves and calls `module.init` with the key's
full element list.
-/

/-- State of one deferred module identifier: is the key still in
`deferredModules`, is `watchModules` still bound to `docShift`, and the
argument lists of the `init` calls performed so far. -/
structure WatchState where
  deferred : Bool
  listener : Bool
  initCalls : List (List Nat)
deriving DecidableEq, Repr

/-- Fresh state right after `dynImports` registered the watcher. -/
def initialWatch : WatchState := ⟨true, true, []⟩

/-- Processing of one `docShift` signal by `watchModules`: the
element loop runs only if the listener is still bound; each visible
element whose key is still present starts an import (the key is NOT
cleared during the signal — deletion is in the `.then`), and the
visible branch unbinds the listener.  After the signal, every
started import resolves: it calls `init` with the full element list
and then deletes the key. -/
def watchSignal (elements : List Nat) (vis : Nat → Bool)
    (st : WatchState) : WatchState :=
  if st.listener then
    let loop := elements.foldl (fun (acc : Nat × Bool) e =>
      if vis e then
        ((if st.deferred then acc.1 + 1 else acc.1), false)
      else acc) (0, true)
    { deferred := st.deferred && loop.1 == 0,
      listener := loop.2,
      initCalls := st.initCalls ++ List.replicate loop.1 elements }
  else st

/-- Fold of `watchSignal` over a sequence of `docShift` signals. -/
def watchSignals (elements : List Nat) (sigs : List (Nat → Bool))
    (st : WatchState) : WatchState :=
  sigs.foldl (fun s v => watchSignal elements v s) st

/-- Claim C2 (code evaluation at the failing input): a lazy identifier
requested by elements 1 and 2, both visible when the first `docShift`
signal runs the watcher, starts two imports — the guard
`if (deferredModules[key])` still passes for the second element
because the key is only deleted in the import's `.then` — so `init`
runs twice for the same identifier. -/
theorem watchModules_double_start_same_signal :
    (watchSignals [1, 2] [fun _ => true] initialWatch).initCalls =
      [[1, 2], [1, 2]] := by
  decide

lemma watchSignals_listener_off (elements : List Nat)
    (sigs : List (Nat → Bool)) (st : WatchState)
    (h : st.listener = false) :
    watchSignals elements sigs st = st := by
  induction sigs with
  | nil => rfl
  | cons v vs ih =>
    unfold watchSignals
    simp only [List.foldl_cons]
    rw [show watchSignal elements v st = st by unfold watchSignal; rw [h]; simp]
    exact ih

/-- Claim C7: a lazy identifier requested by elements `A` and `B`,
where `A` is never visible and `B` becomes visible during some signal,
triggers exactly one load, and `init` receives the full element list
`[A, B]` — not just the element that triggered the load. -/
theorem watchModules_only_B_visible (A B : Nat) (sigs : List (Nat → Bool))
    (hA : sigs.all (fun v => v A == false) = true)
    (hB : sigs.any (fun v => v B) = true) :
    (watchSignals [A, B] sigs initialWatch).initCalls = [[A, B]] := by
  induction sigs with
  | nil => simp at hB
  | cons v vs ih =>
    simp only [List.all_cons, Bool.and_eq_true, beq_iff_eq] at hA
    obtain ⟨hvA, hAs⟩ := hA
    unfold watchSignals
    simp only [List.foldl_cons]
    cases hvB : v B with
    | true =>
      have hstep : watchSignal [A, B] v initialWatch =
          ⟨false, false, [[A, B]]⟩ := by
        unfold watchSignal initialWatch
        simp [hvA, hvB]
      rw [hstep]
      have := watchSignals_listener_off [A, B] vs ⟨false, false, [[A, B]]⟩ rfl
      unfold watchSignals at this
      rw [this]
    | false =>
      have hstep : watchSignal [A, B] v initialWatch = initialWatch := by
        unfold watchSignal initialWatch
        simp [hvA, hvB]
      rw [hstep]
      have hBs : vs.any (fun v => v B) = true := by
        simp only [List.any_cons, hvB, Bool.false_or] at hB
        exact hB
      exact ih hAs hBs

/-- Claim C7 (witness): elements 1 and 2, one signal in which only
element 2 is visible: exactly one `init` call, receiving `[1, 2]`. -/
theorem watchModules_only_B_visible_witness :
    (watchSignals [1, 2] [fun e => e == 2] initialWatch).initCalls =
      [[1, 2]] :=
  watchModules_only_B_visible 1 2 [fun e => e == 2] rfl rfl

/-! ## isVisible (`hnl.helpers.mjs`, two-result version)

`isVisible(element, callback, vp)` computes the element's bounding box
and resolves the (possibly partial) viewport override against the
window's edges, then calls back with `(visible, fullyVisible, rect)`.
Coordinates are modelled as integers; the comparisons translate
verbatim. -/

/-- Element bounding box (`getBoundingClientRect()`). -/
structure Rect where
  top : Int
  bottom : Int
  left : Int
  right : Int
  width : Int
  height : Int
deriving DecidableEq, Repr

/-- Resolved logical viewport. -/
structure Viewport where
  top : Int
  bottom : Int
  left : Int
  right : Int
deriving DecidableEq, Repr

/-- Caller-supplied partial viewport override (`vp` argument); unset
edges default to the window's edges. -/
structure VpOverride where
  top : Option Int
  bottom : Option Int
  left : Option Int
  right : Option Int
deriving DecidableEq, Repr

/-- Window dimensions (`window.innerWidth` / `window.innerHeight`). -/
structure Win where
  innerWidth : Int
  innerHeight : Int
deriving DecidableEq, Repr

/-- `typeof vp.top !== 'undefined' ? vp.top : 0` and friends. -/
def resolveViewport (vp : VpOverride) (win : Win) : Viewport :=
  { top := vp.top.getD 0,
    bottom := vp.bottom.getD win.innerHeight,
    left := vp.left.getD 0,
    right := vp.right.getD win.innerWidth }

/-- The pair `(visible, fullyVisible)` handed to the callback by
`isVisible`. -/
def isVisibleCheck (rect : Rect) (vp : VpOverride) (win : Win) :
    Bool × Bool :=
  let viewport := resolveViewport vp win
  let fullyVisible :=
    (rect.height > 0 || rect.width > 0) &&
    rect.bottom < viewport.bottom &&
    rect.right < viewport.right &&
    rect.top > viewport.top &&
    rect.left > viewport.left
  let visible :=
    (rect.height > 0 || rect.width > 0) &&
    rect.bottom ≥ 0 &&
    rect.top ≤ viewport.bottom &&
    ((rect.right > viewport.left && rect.right ≤ viewport.right) ||
     (rect.left < viewport.right && rect.left ≥ viewport.left))
  (visible, fullyVisible)

/-- Specification-side geometric predicate: the element box and the
viewport region overlap (share interior points). -/
def boxOverlaps (r : Rect) (v : Viewport) : Prop :=
  r.left < v.right ∧ v.left < r.right ∧ r.top < v.bottom ∧ v.top < r.bottom

/-- Specification-side geometric predicate: the entire element box
lies within the viewport region (closed containment). -/
def boxInside (r : Rect) (v : Viewport) : Prop :=
  v.top ≤ r.top ∧ r.bottom ≤ v.bottom ∧ v.left ≤ r.left ∧ r.right ≤ v.right

/-- Wide element of the C6 counterexample: spans the whole viewport
horizontally. -/
def rectSpan : Rect := ⟨10, 20, -10, 200, 210, 10⟩

/-- Edge-flush element of the C6 counterexample: occupies the
viewport's top-left corner, entirely within the region. -/
def rectFlush : Rect := ⟨0, 10, 0, 10, 10, 10⟩

/-- Empty viewport override (caller passed nothing). -/
def vpDefault : VpOverride := ⟨none, none, none, none⟩

/-- A 100×100 window. -/
def win100 : Win := ⟨100, 100⟩

/-- Claim C6 (counterexample): an element spanning the viewport
horizontally overlaps the region but `isVisible` reports
`visible = false` (neither of its horizontal edges lies inside the
span), and an element flush with the top-left corner lies entirely
within the region but `fullyVisible = false` (the code compares
strictly). -/
theorem isVisible_not_overlap_semantics :
    boxOverlaps rectSpan (resolveViewport vpDefault win100) ∧
    (isVisibleCheck rectSpan vpDefault win100).1 = false ∧
    boxInside rectFlush (resolveViewport vpDefault win100) ∧
    (isVisibleCheck rectFlush vpDefault win100).2 = false := by
  refine ⟨?_, by decide, ?_, by decide⟩
  · unfold boxOverlaps resolveViewport vpDefault win100 rectSpan
    decide
  · unfold boxInside resolveViewport vpDefault win100 rectFlush
    decide

/-- Amended visibility predicate, following the code: nonzero size,
bottom not above the window top (0, not the override's top), top not
below the viewport bottom, and one of the element's horizontal edges
lying within the viewport's horizontal span. -/
def specVisible (r : Rect) (v : Viewport) : Prop :=
  (0 < r.height ∨ 0 < r.width) ∧ 0 ≤ r.bottom ∧ r.top ≤ v.bottom ∧
    ((v.left < r.right ∧ r.right ≤ v.right) ∨
     (v.left ≤ r.left ∧ r.left < v.right))

/-- Amended full-visibility predicate: nonzero size and strict
containment in the viewport region. -/
def specFullyVisible (r : Rect) (v : Viewport) : Prop :=
  (0 < r.height ∨ 0 < r.width) ∧
    v.top < r.top ∧ r.bottom < v.bottom ∧ v.left < r.left ∧ r.right < v.right

/-- Claim C6 (amended): for every element box, partial override and
window, `visible` holds exactly when the amended visibility predicate
does, and `fullyVisible` exactly when the element box of nonzero size
lies strictly inside the resolved region. -/
theorem isVisibleCheck_characterization (r : Rect) (vp : VpOverride)
    (win : Win) :
    ((isVisibleCheck r vp win).1 = true ↔
      specVisible r (resolveViewport vp win)) ∧
    ((isVisibleCheck r vp win).2 = true ↔
      specFullyVisible r (resolveViewport vp win)) := by
  unfold isVisibleCheck specVisible specFullyVisible
  constructor <;>
    · simp only [Bool.and_eq_true, Bool.or_eq_true, decide_eq_true_eq,
        gt_iff_lt, ge_iff_le]
      tauto

/-- Claim C10: an element whose bounding box has zero width and zero
height is reported neither visible nor fully visible, whatever its
position, the override and the window. -/
theorem isVisibleCheck_zero_size (r : Rect) (vp : VpOverride) (win : Win)
    (hw : r.width = 0) (hh : r.height = 0) :
    isVisibleCheck r vp win = (false, false) := by
  unfold isVisibleCheck
  simp [hw, hh]

/-- Claim C10 (witness): a concrete zero-size box is reported
`(false, false)`. -/
theorem isVisibleCheck_zero_size_witness :
    isVisibleCheck ⟨3, 3, 2, 2, 0, 0⟩ ⟨some 1, none, none, some 50⟩ ⟨100, 80⟩ =
      (false, false) :=
  isVisibleCheck_zero_size ⟨3, 3, 2, 2, 0, 0⟩ ⟨some 1, none, none, some 50⟩
    ⟨100, 80⟩ rfl rfl

/-! ## eventHandler dispatch (`_runListeners` in `hnl.eventhandler.mjs`)

Each `_runListeners(events)` call schedules one `requestAnimationFrame`
callback; all callbacks scheduled for the same frame run in order and
receive the SAME `timeStamp`.  Within the frame, each batch loops over
its events and each event's callback ids; a callback runs when its
`lastRunTimes` entry differs from the frame's timestamp OR the event
is in `_allowMultiple`, and running it updates `lastRunTimes[id]` to
the timestamp.  We model a frame as the list of batches it executes. -/

/-- `_allowMultiple` from the source: events allowed to run the same
callback several times within one animation frame. -/
def allowMultiple : List String := ["breakPointChange"]

/-- Mutable dispatch data: `_lastRunTimeStamps` plus the log of the
callback invocations performed (id, event). -/
structure FrameState where
  lastRun : List (String × Nat)
  invoked : List (String × String)
deriving DecidableEq, Repr

/-- `this._lastRunTimeStamps[id]`. -/
def lookupLast (l : List (String × Nat)) (id : String) : Option Nat :=
  List.lookup id l

/-- `lastRunTimes[id] = timeStamp`. -/
def setLast : List (String × Nat) → String → Nat → List (String × Nat)
  | [], id, t => [(id, t)]
  | (k, v) :: rest, id, t =>
    if k = id then (k, t) :: rest else (k, v) :: setLast rest id t

/-- Inner loop body of `_runListeners`: run callback `id` for `event`
unless it already ran in this frame and the event is not in the
allow-multiple set
(`lastRunTimes[id] !== timeStamp || allowMultiple.includes(event)`). -/
def runCallbackStep (t : Nat) (ev : String) (st : FrameState)
    (id : String) : FrameState :=
  if (lookupLast st.lastRun id != some t) || allowMultiple.contains ev then
    { lastRun := setLast st.lastRun id t,
      invoked := st.invoked ++ [(id, ev)] }
  else st

/-- Loop over the ids registered for one event. -/
def runEvent (cbs : String → List String) (t : Nat) (st : FrameState)
    (ev : String) : FrameState :=
  (cbs ev).foldl (runCallbackStep t ev) st

/-- One `_runListeners(events)` batch inside the frame. -/
def runBatch (cbs : String → List String) (t : Nat) (st : FrameState)
    (events : List String) : FrameState :=
  events.foldl (runEvent cbs t) st

/-- All batches scheduled in one animation frame (they share the
timestamp `t`). -/
def runFrame (cbs : String → List String) (t : Nat)
    (batches : List (List String)) (st : FrameState) : FrameState :=
  batches.foldl (runBatch cbs t) st

/-- Number of invocations of callback `id` in the log that came from
events outside the allow-multiple set. -/
def nonMultiCount (inv : List (String × String)) (id : String) : Nat :=
  (inv.filter (fun p => p.1 == id && !(allowMultiple.contains p.2))).length

lemma nonMultiCount_append (l l' : List (String × String)) (id : String) :
    nonMultiCount (l ++ l') id = nonMultiCount l id + nonMultiCount l' id := by
  unfold nonMultiCount
  rw [List.filter_append, List.length_append]

lemma nonMultiCount_single_self (ev id : String) :
    nonMultiCount [(id, ev)] id =
      if allowMultiple.contains ev then 0 else 1 := by
  unfold nonMultiCount
  cases h : allowMultiple.contains ev <;>
    simp_all [List.filter_cons, List.contains, List.elem_eq_mem]

lemma nonMultiCount_single_other (ev id id' : String) (h : id ≠ id') :
    nonMultiCount [(id', ev)] id = 0 := by
  simp [nonMultiCount, List.filter_cons, beq_eq_false_iff_ne.mpr (Ne.symm h)]

lemma lookup_setLast (l : List (String × Nat)) (id id' : String) (t : Nat) :
    lookupLast (setLast l id t) id' =
      if id' = id then some t else lookupLast l id' := by
  induction l with
  | nil =>
    by_cases h : id' = id
    · simp [setLast, lookupLast, List.lookup, h]
    · simp [setLast, lookupLast, List.lookup, h, beq_eq_false_iff_ne.mpr h]
  | cons hd tl ih =>
    obtain ⟨k, v⟩ := hd
    by_cases h1 : k = id
    · subst h1
      by_cases h2 : id' = k
      · simp [setLast, lookupLast, List.lookup, h2]
      · simp [setLast, lookupLast, List.lookup, h2, beq_eq_false_iff_ne.mpr h2]
    · by_cases h2 : id' = k
      · have hne : ¬ id' = id := fun h' => h1 (h' ▸ h2).symm
        simp [setLast, h1, lookupLast, List.lookup, h2, hne]
      · simp only [setLast, if_neg h1, lookupLast, List.lookup,
          beq_eq_false_iff_ne.mpr h2]
        exact ih

/-- Frame invariant for a fixed callback id: once the id's
`lastRunTimes` entry equals the frame's timestamp it has run at most
once via non-multiple events, and before that it has not run at all. -/
def FrameInv (t : Nat) (id : String) (st : FrameState) : Prop :=
  if lookupLast st.lastRun id = some t then
    nonMultiCount st.invoked id ≤ 1
  else
    nonMultiCount st.invoked id = 0

lemma runCallbackStep_inv (t : Nat) (ev : String) (st : FrameState)
    (id id' : String) (h : FrameInv t id st) :
    FrameInv t id (runCallbackStep t ev st id') := by
  unfold runCallbackStep
  by_cases hrun :
      ((lookupLast st.lastRun id' != some t) ||
        allowMultiple.contains ev) = true
  · rw [if_pos hrun]
    by_cases hid : id = id'
    · subst hid
      unfold FrameInv at h ⊢
      have hl : lookupLast (setLast st.lastRun id t) id = some t := by
        rw [lookup_setLast, if_pos rfl]
      rw [hl, if_pos rfl, nonMultiCount_append, nonMultiCount_single_self]
      cases hmult : allowMultiple.contains ev with
      | true =>
        rw [if_pos rfl]
        split_ifs at h <;> omega
      | false =>
        have hfresh : ¬ lookupLast st.lastRun id = some t := by
          rw [hmult, Bool.or_false, bne_iff_ne] at hrun
          exact hrun
        rw [if_neg hfresh] at h
        rw [if_neg Bool.false_ne_true]
        omega
    · unfold FrameInv at h ⊢
      have hl : lookupLast (setLast st.lastRun id' t) id =
          lookupLast st.lastRun id := by
        rw [lookup_setLast, if_neg hid]
      rw [hl, nonMultiCount_append,
        nonMultiCount_single_other ev id id' hid, Nat.add_zero]
      exact h
  · rw [if_neg hrun]
    exact h

lemma foldl_preserves {α β : Type} (P : β → Prop) (f : β → α → β)
    (hf : ∀ b a, P b → P (f b a)) :
    ∀ (l : List α) (b : β), P b → P (l.foldl f b)
  | [], _, hb => hb
  | a :: l, b, hb => foldl_preserves P f hf l (f b a) (hf b a hb)

lemma runFrame_inv (cbs : String → List String) (t : Nat)
    (batches : List (List String)) (st : FrameState) (id : String)
    (h : FrameInv t id st) :
    FrameInv t id (runFrame cbs t batches st) := by
  unfold runFrame
  refine foldl_preserves (FrameInv t id) (runBatch cbs t) ?_ batches st h
  intro b evs hb
  unfold runBatch
  refine foldl_preserves (FrameInv t id) (runEvent cbs t) ?_ evs b hb
  intro b' ev hb'
  unfold runEvent
  refine foldl_preserves (FrameInv t id) (runCallbackStep t ev) ?_ (cbs ev) b' hb'
  intro b'' id' hb''
  exact runCallbackStep_inv t ev b'' id id' hb''

/-- Claim C5: during one animation frame (timestamp `t`, fresh for the
registered callback), however many batches dispatch and however the
channels share listeners, a given callback id is invoked at most once
via channels outside the allow-multiple set; only `breakPointChange`
(the allow-multiple set) may run it again within the frame. -/
theorem runFrame_listener_at_most_once (cbs : String → List String)
    (batches : List (List String)) (id : String) (t : Nat)
    (st : FrameState)
    (hfresh : lookupLast st.lastRun id ≠ some t)
    (hlog : st.invoked = []) :
    nonMultiCount (runFrame cbs t batches st).invoked id ≤ 1 := by
  have h0 : FrameInv t id st := by
    unfold FrameInv
    rw [if_neg hfresh, hlog]
    rfl
  have hend := runFrame_inv cbs t batches st id h0
  simp only [FrameInv] at hend
  split_ifs at hend <;> omega

/-- Claim C5 (witness): a frame with two batches both dispatching
`docShift` to the same listener invokes it at most once via
non-multiple channels. -/
theorem runFrame_listener_at_most_once_witness :
    nonMultiCount (runFrame
      (fun ev => if ev == "docShift" then ["100"] else [])
      7 [["docShift"], ["docShift", "breakPointChange"]]
      ⟨[], []⟩).invoked "100" ≤ 1 :=
  runFrame_listener_at_most_once
    (fun ev => if ev == "docShift" then ["100"] else [])
    [["docShift"], ["docShift", "breakPointChange"]] "100" 7 ⟨[], []⟩
    (by simp [lookupLast]) rfl

/-! ## eventHandler registration (`addListener` / `removeListener`)

Listener identity is `this._hashCode(callback.toString())`: the
JavaScript 32-bit string hash of the callback's source text, so a
callback is modelled by that text.  `_callbacks` maps each fixed
channel name to an object keyed by listener id. -/

/-- Truncation to a signed 32-bit integer (`hash & hash` and the
implicit int32 conversion of `<<`). -/
def toInt32 (n : Int) : Int := (n + 2 ^ 31) % 2 ^ 32 - 2 ^ 31

/-- One loop iteration of `_hashCode`:
`hash = ((hash << 5) - hash) + char; hash = hash & hash;`. -/
def hashStep (h : Int) (c : Nat) : Int :=
  toInt32 (toInt32 (h * 32) - h + c)

/-- `_hashCode(string)`: fold the step over the character codes, then
`Math.abs(hash).toString()`. -/
def hashCode (s : String) : String :=
  (s.data.foldl (fun h c => hashStep h c.toNat) 0).natAbs.repr

/-- Channel names of `this._callbacks` in the constructor. -/
def channelNames : List String :=
  ["docReady", "breakPointChange", "docShift",
   "startResize", "resize", "endResize", "bodyResize",
   "docBlur", "docFocus",
   "scroll", "startScroll", "endScroll",
   "docLoaded", "imgsLoaded"]

/-- `this._singleExecution`: one-shot lifecycle channels. -/
def singleExecution : List String := ["docReady", "imgsLoaded", "docLoaded"]

/-- Registration state: `_callbacks` (channel → listener id → callback
source) and `_states` (the one-shot conditions that already became
true). -/
structure HandlerState where
  callbacks : List (String × List (String × String))
  states : List String
deriving DecidableEq, Repr

/-- State as built by the constructor: every fixed channel present and
empty. -/
def initHandler : HandlerState :=
  ⟨channelNames.map (fun n => (n, [])), []⟩

/-- Replace channel `ev`'s listener map. -/
def setChannel (st : HandlerState) (ev : String)
    (chan : List (String × String)) : HandlerState :=
  { st with callbacks :=
      st.callbacks.map (fun p => if p.1 = ev then (p.1, chan) else p) }

/-- `addListener(event, callback)`: unknown channels are a warning
no-op; a one-shot channel whose condition already passed invokes the
callback immediately without registering; otherwise the callback is
stored under its hash id unless that id is already present
(re-registration is skipped with a warning). -/
def addListener (st : HandlerState) (ev : String) (cb : String) :
    HandlerState :=
  match List.lookup ev st.callbacks with
  | none => st
  | some chan =>
    if singleExecution.contains ev && st.states.contains ev then st
    else
      let id := hashCode cb
      if (List.lookup id chan).isSome then st
      else setChannel st ev (chan ++ [(id, cb)])

/-- `removeListener(event, callback)`: delete the entry stored under
the callback's hash id, when present. -/
def removeListener (st : HandlerState) (ev : String) (cb : String) :
    HandlerState :=
  match List.lookup ev st.callbacks with
  | none => st
  | some chan =>
    let id := hashCode cb
    if (List.lookup id chan).isSome then
      setChannel st ev (chan.filter (fun p => !(p.1 == id)))
    else st

/-- Number of listeners stored under id `id` on channel `ev`. -/
def countId (st : HandlerState) (ev : String) (id : String) : Nat :=
  (((List.lookup ev st.callbacks).getD []).filter
    (fun p => p.1 == id)).length

/-- Well-formedness: every channel's listener ids are distinct
(automatic for a JavaScript object, whose keys are unique). -/
def HandlerWF (st : HandlerState) : Prop :=
  ∀ p ∈ st.callbacks, (p.2.map Prod.fst).Nodup

lemma lookup_map_set (l : List (String × List (String × String)))
    (ev : String) (chan : List (String × String)) :
    List.lookup ev (l.map (fun p => if p.1 = ev then (p.1, chan) else p)) =
      if (List.lookup ev l).isSome then some chan else none := by
  induction l with
  | nil => simp [List.lookup]
  | cons hd tl ih =>
    obtain ⟨k, v⟩ := hd
    simp only [List.map_cons]
    by_cases h : k = ev
    · subst h
      rw [show (if (k, v).1 = k then ((k, v).1, chan) else (k, v)) = (k, chan)
        from if_pos rfl]
      simp [List.lookup]
    · rw [show (if (k, v).1 = ev then ((k, v).1, chan) else (k, v)) = (k, v)
        from if_neg h]
      simp only [List.lookup, beq_eq_false_iff_ne.mpr (fun h' => h h'.symm)]
      exact ih

lemma lookup_map_set_other (l : List (String × List (String × String)))
    (ev ev' : String) (chan : List (String × String)) (h : ev' ≠ ev) :
    List.lookup ev' (l.map (fun p => if p.1 = ev then (p.1, chan) else p)) =
      List.lookup ev' l := by
  induction l with
  | nil => simp
  | cons hd tl ih =>
    obtain ⟨k, v⟩ := hd
    simp only [List.map_cons]
    by_cases hk : k = ev
    · subst hk
      rw [show (if (k, v).1 = k then ((k, v).1, chan) else (k, v)) = (k, chan)
        from if_pos rfl]
      simp only [List.lookup, beq_eq_false_iff_ne.mpr h]
      exact ih
    · rw [show (if (k, v).1 = ev then ((k, v).1, chan) else (k, v)) = (k, v)
        from if_neg hk]
      simp only [List.lookup]
      cases hbe : ev' == k
      · exact ih
      · rfl

lemma count_lookup_none (chan : List (String × String)) (id : String)
    (h : List.lookup id chan = none) :
    (chan.filter (fun p => p.1 == id)).length = 0 := by
  induction chan with
  | nil => rfl
  | cons hd tl ih =>
    obtain ⟨k, v⟩ := hd
    simp only [List.lookup] at h
    cases hbe : (id == k)
    · rw [hbe] at h
      simp only [List.filter_cons]
      have : (k == id) = false :=
        beq_eq_false_iff_ne.mpr (fun h' => (beq_eq_false_iff_ne.mp hbe) h'.symm)
      rw [this]
      exact ih h
    · rw [hbe] at h
      exact absurd h (by simp)

lemma lookup_none_of_not_mem_keys (chan : List (String × String))
    (id : String) (h : id ∉ chan.map Prod.fst) :
    List.lookup id chan = none := by
  induction chan with
  | nil => rfl
  | cons hd tl ih =>
    obtain ⟨k, v⟩ := hd
    simp only [List.map_cons, List.mem_cons, not_or] at h
    simp only [List.lookup, beq_eq_false_iff_ne.mpr h.1]
    exact ih h.2

lemma count_lookup_some_nodup (chan : List (String × String)) (id : String)
    (hnd : (chan.map Prod.fst).Nodup)
    (h : (List.lookup id chan).isSome = true) :
    (chan.filter (fun p => p.1 == id)).length = 1 := by
  induction chan with
  | nil => simp [List.lookup] at h
  | cons hd tl ih =>
    obtain ⟨k, v⟩ := hd
    simp only [List.map_cons, List.nodup_cons] at hnd
    simp only [List.lookup] at h
    cases hbe : (id == k)
    · rw [hbe] at h
      simp only [List.filter_cons]
      have : (k == id) = false :=
        beq_eq_false_iff_ne.mpr (fun h' => (beq_eq_false_iff_ne.mp hbe) h'.symm)
      rw [this]
      exact ih hnd.2 h
    · have hk : id = k := beq_iff_eq.mp hbe
      subst hk
      have : List.lookup id tl = none :=
        lookup_none_of_not_mem_keys tl id hnd.1
      simp [List.filter_cons, count_lookup_none tl id this]

lemma count_filter_out (chan : List (String × String)) (id : String) :
    ((chan.filter (fun p => !(p.1 == id))).filter
      (fun p => p.1 == id)).length = 0 := by
  induction chan with
  | nil => rfl
  | cons hd tl ih =>
    obtain ⟨k, v⟩ := hd
    cases hbe : (k == id) <;> simp [List.filter_cons, hbe, ih]

lemma lookup_append_self (chan : List (String × String)) (id : String)
    (cb : String) (h : List.lookup id chan = none) :
    List.lookup id (chan ++ [(id, cb)]) = some cb := by
  induction chan with
  | nil => simp [List.lookup]
  | cons hd tl ih =>
    obtain ⟨k, v⟩ := hd
    simp only [List.lookup] at h
    cases hbe : (id == k)
    · rw [hbe] at h
      simp only [List.cons_append, List.lookup, hbe]
      exact ih h
    · rw [hbe] at h
      exact absurd h (by simp)

lemma mem_of_lookup_eq_some {l : List (String × List (String × String))}
    {a : String} {b : List (String × String)}
    (h : List.lookup a l = some b) : (a, b) ∈ l := by
  induction l with
  | nil => simp [List.lookup] at h
  | cons hd tl ih =>
    obtain ⟨k, v⟩ := hd
    simp only [List.lookup] at h
    cases hbe : (a == k)
    · rw [hbe] at h
      exact List.mem_cons_of_mem _ (ih h)
    · rw [hbe] at h
      obtain rfl : v = b := by simpa using h
      obtain rfl : a = k := beq_iff_eq.mp hbe
      exact List.mem_cons_self _ _

/-- Claim C9: on a valid channel whose one-shot condition has not
passed, registering a callback whose source text equals that of an
already-registered callback leaves exactly one active listener under
that identity (the second registration is a no-op), and a single
`removeListener` with an identically-serialized callback removes the
listener entirely. -/
theorem addListener_structural_dedup (st : HandlerState) (ch cb : String)
    (hwf : HandlerWF st)
    (hch : (List.lookup ch st.callbacks).isSome = true)
    (hsingle : (singleExecution.contains ch && st.states.contains ch) = false) :
    addListener (addListener st ch cb) ch cb = addListener st ch cb ∧
    countId (addListener st ch cb) ch (hashCode cb) = 1 ∧
    countId (removeListener (addListener st ch cb) ch cb) ch
      (hashCode cb) = 0 := by
  obtain ⟨chan, hlk⟩ : ∃ chan, List.lookup ch st.callbacks = some chan := by
    cases hl : List.lookup ch st.callbacks with
    | none => rw [hl] at hch; simp at hch
    | some c => exact ⟨c, rfl⟩
  have hnd : (chan.map Prod.fst).Nodup := hwf (ch, chan) (mem_of_lookup_eq_some hlk)
  cases hid : (List.lookup (hashCode cb) chan).isSome with
  | true =>
    have hadd : addListener st ch cb = st := by
      unfold addListener
      rw [hlk]
      simp only [hsingle, Bool.false_eq_true, if_false, hid, if_true]
    refine ⟨by rw [hadd, hadd], ?_, ?_⟩
    · rw [hadd]
      unfold countId
      rw [hlk, Option.getD_some]
      exact count_lookup_some_nodup chan (hashCode cb) hnd hid
    · rw [hadd]
      unfold removeListener
      rw [hlk]
      simp only [hid, if_true]
      unfold countId setChannel
      simp only [lookup_map_set, hlk, Option.isSome_some, if_true,
        Option.getD_some]
      exact count_filter_out chan (hashCode cb)
  | false =>
    have hidn : List.lookup (hashCode cb) chan = none :=
      Option.not_isSome_iff_eq_none.mp (by simp [hid])
    have hadd : addListener st ch cb =
        setChannel st ch (chan ++ [(hashCode cb, cb)]) := by
      unfold addListener
      rw [hlk]
      simp only [hsingle, Bool.false_eq_true, if_false, hid]
    have hlk1 : List.lookup ch (addListener st ch cb).callbacks =
        some (chan ++ [(hashCode cb, cb)]) := by
      rw [hadd]
      unfold setChannel
      simp only [lookup_map_set, hlk, Option.isSome_some, if_true]
    have hstates : (addListener st ch cb).states = st.states := by
      rw [hadd]; rfl
    have hlk2 : List.lookup (hashCode cb) (chan ++ [(hashCode cb, cb)]) =
        some cb := lookup_append_self chan (hashCode cb) cb hidn
    set st1 := addListener st ch cb with hst1
    refine ⟨?_, ?_, ?_⟩
    · conv_lhs => unfold addListener
      rw [hlk1, hstates]
      simp only [hsingle, Bool.false_eq_true, if_false, hlk2,
        Option.isSome_some, if_true]
    · unfold countId
      rw [hlk1, Option.getD_some, List.filter_append, List.length_append,
        count_lookup_none chan (hashCode cb) hidn]
      simp
    · unfold removeListener
      rw [hlk1]
      simp only [hlk2, Option.isSome_some, if_true]
      unfold countId setChannel
      simp only [lookup_map_set, hlk1, Option.isSome_some, if_true,
        Option.getD_some]
      exact count_filter_out _ (hashCode cb)

/-- Claim C9 (witness): the initial handler, channel `docShift`, and a
concrete callback source registered twice then removed once. -/
theorem addListener_structural_dedup_witness :
    addListener (addListener initHandler "docShift" "function(){}")
        "docShift" "function(){}" =
      addListener initHandler "docShift" "function(){}" ∧
    countId (addListener initHandler "docShift" "function(){}") "docShift"
      (hashCode "function(){}") = 1 ∧
    countId (removeListener
        (addListener initHandler "docShift" "function(){}")
        "docShift" "function(){}") "docShift"
      (hashCode "function(){}") = 0 :=
  addListener_structural_dedup initHandler "docShift" "function(){}"
    (by
      intro p hp
      simp only [initHandler, List.mem_map] at hp
      obtain ⟨n, _, rfl⟩ := hp
      simp)
    (by decide) (by decide)

/-! ## BreakpointHandler (`hnl.breakpoints.mjs`)

`setBreakpoints` walks the ordered breakpoint list; for each entry it
computes `maxPx = breakpoints[x + 1]?.minPx - 0.02 || 0` and registers
the media query `(min-width: minPx px)` — with `and (max-width: maxPx
px)` when `maxPx` is truthy (nonzero).  To keep arithmetic exact, all
widths are scaled to hundredths of a CSS pixel (so `0.02px` is `2`).
The steady-state classification of a viewport width is the list of
`(name, matches)` pairs of these media queries. -/

/-- The `breakpoints` const (Bootstrap 5 defaults), `minPx` in whole
pixels. -/
def breakpoints : List (String × Int) :=
  [("xs", 0), ("sm", 576), ("md", 768), ("lg", 992), ("xl", 1200),
   ("xxl", 1400)]

/-- Does the media query `(min-width: minH)` — `and (max-width: maxH)`
when `maxH` is truthy — match width `w`?  All values in hundredths of
a pixel; `maxH = 0` encodes the falsy case (last range, min-only). -/
def mediaQueryMatches (minH maxH w : Int) : Bool :=
  minH ≤ w && (maxH == 0 || w ≤ maxH)

/-- Loop of `setBreakpoints` with its one-entry lookahead
(`breakpoints[x + 1]?.minPx - 0.02 || 0`, the `undefined` case giving
`NaN || 0 = 0`): the `(name, matches)` pair emitted for every range at
width `w`. -/
def emitRanges : List (String × Int) → Int → List (String × Bool)
  | [], _ => []
  | (name, minPx) :: rest, w =>
    let maxH : Int :=
      match rest.head? with
      | some nxt => 100 * nxt.2 - 2
      | none => 0
    (name, mediaQueryMatches (100 * minPx) maxH w) :: emitRanges rest w

/-- Steady-state classification of a width by `setBreakpoints`. -/
def setBreakpointsEmit (w : Int) : List (String × Bool) :=
  emitRanges breakpoints w

/-- Number of ranges reporting `matches = true` at width `w`. -/
def matchCount (w : Int) : Nat :=
  ((setBreakpointsEmit w).filter (fun p => p.2)).length

/-- Claim C3 (counterexample): at viewport width 575.99px (57599 in
hundredths) no range matches — `xs` ends at `max-width: 575.98px` and
`sm` starts at `min-width: 576px`, so the ranges do not partition
[0, ∞): each boundary leaves a 0.02px gap. -/
theorem breakpoints_gap_at_575_99 :
    matchCount 57599 = 0 ∧ matchCount 57598 = 1 ∧ matchCount 57600 = 1 := by
  decide

/-- Claim C3 (amended): at every whole-pixel viewport width exactly
one of the named breakpoint ranges matches (each range's media query
is min-width and max-width at the next minimum − 0.02px, the last
min-width only); only fractional widths inside a 0.02px boundary gap
match no range. -/
lemma mediaQueryMatches_eq_true (minH maxH w : Int)
    (h : minH ≤ w ∧ (maxH = 0 ∨ w ≤ maxH)) :
    mediaQueryMatches minH maxH w = true := by
  unfold mediaQueryMatches
  simp only [Bool.and_eq_true, Bool.or_eq_true, decide_eq_true_eq,
    beq_iff_eq]
  exact h

lemma mediaQueryMatches_eq_false (minH maxH w : Int)
    (h : ¬ (minH ≤ w ∧ (maxH = 0 ∨ w ≤ maxH))) :
    mediaQueryMatches minH maxH w = false := by
  rw [Bool.eq_false_iff]
  intro hc
  unfold mediaQueryMatches at hc
  simp only [Bool.and_eq_true, Bool.or_eq_true, decide_eq_true_eq,
    beq_iff_eq] at hc
  exact h hc

lemma setBreakpointsEmit_eq (w : Int) :
    setBreakpointsEmit w =
      [("xs", mediaQueryMatches 0 57598 w),
       ("sm", mediaQueryMatches 57600 76798 w),
       ("md", mediaQueryMatches 76800 99198 w),
       ("lg", mediaQueryMatches 99200 119998 w),
       ("xl", mediaQueryMatches 120000 139998 w),
       ("xxl", mediaQueryMatches 140000 0 w)] := by
  simp only [setBreakpointsEmit, emitRanges, breakpoints, List.head?]
  norm_num

theorem breakpoints_partition_whole_pixels (w : Nat) :
    matchCount (100 * (w : Int)) = 1 := by
  unfold matchCount
  rw [setBreakpointsEmit_eq]
  rcases lt_or_le w 576 with h | h
  · rw [mediaQueryMatches_eq_true 0 57598 _ (by omega),
      mediaQueryMatches_eq_false 57600 76798 _ (by omega),
      mediaQueryMatches_eq_false 76800 99198 _ (by omega),
      mediaQueryMatches_eq_false 99200 119998 _ (by omega),
      mediaQueryMatches_eq_false 120000 139998 _ (by omega),
      mediaQueryMatches_eq_false 140000 0 _ (by omega)]
    decide
  · rcases lt_or_le w 768 with h2 | h2
    · rw [mediaQueryMatches_eq_false 0 57598 _ (by omega),
        mediaQueryMatches_eq_true 57600 76798 _ (by omega),
        mediaQueryMatches_eq_false 76800 99198 _ (by omega),
        mediaQueryMatches_eq_false 99200 119998 _ (by omega),
        mediaQueryMatches_eq_false 120000 139998 _ (by omega),
        mediaQueryMatches_eq_false 140000 0 _ (by omega)]
      decide
    · rcases lt_or_le w 992 with h3 | h3
      · rw [mediaQueryMatches_eq_false 0 57598 _ (by omega),
          mediaQueryMatches_eq_false 57600 76798 _ (by omega),
          mediaQueryMatches_eq_true 76800 99198 _ (by omega),
          mediaQueryMatches_eq_false 99200 119998 _ (by omega),
          mediaQueryMatches_eq_false 120000 139998 _ (by omega),
          mediaQueryMatches_eq_false 140000 0 _ (by omega)]
        decide
      · rcases lt_or_le w 1200 with h4 | h4
        · rw [mediaQueryMatches_eq_false 0 57598 _ (by omega),
            mediaQueryMatches_eq_false 57600 76798 _ (by omega),
            mediaQueryMatches_eq_false 76800 99198 _ (by omega),
            mediaQueryMatches_eq_true 99200 119998 _ (by omega),
            mediaQueryMatches_eq_false 120000 139998 _ (by omega),
            mediaQueryMatches_eq_false 140000 0 _ (by omega)]
          decide
        · rcases lt_or_le w 1400 with h5 | h5
          · rw [mediaQueryMatches_eq_false 0 57598 _ (by omega),
              mediaQueryMatches_eq_false 57600 76798 _ (by omega),
              mediaQueryMatches_eq_false 76800 99198 _ (by omega),
              mediaQueryMatches_eq_false 99200 119998 _ (by omega),
              mediaQueryMatches_eq_true 120000 139998 _ (by omega),
              mediaQueryMatches_eq_false 140000 0 _ (by omega)]
            decide
          · rw [mediaQueryMatches_eq_false 0 57598 _ (by omega),
              mediaQueryMatches_eq_false 57600 76798 _ (by omega),
              mediaQueryMatches_eq_false 76800 99198 _ (by omega),
              mediaQueryMatches_eq_false 99200 119998 _ (by omega),
              mediaQueryMatches_eq_false 120000 139998 _ (by omega),
              mediaQueryMatches_eq_true 140000 0 _ (by omega)]
            decide
